import Mathlib

/-!
# SimpleEq: a verification development of `SimpleEqAudioProcessor`

Shallow embedding of `SimpleEq/Source/PluginProcessor.{h,cpp}`.

Conventions of the embedding.

* Audio samples (`float` in the source) are elements of an arbitrary
  commutative ring `α`; concrete evaluations use `Int`.  Rounding, denormals
  (`ScopedNoDenormals`, `snapToZero`) are outside the embedding.
* Parameter ranges and default values (`float` literals such as `0.1f`) are
  the rationals their decimal text denotes.
* An `AudioBuffer` is its `size` (`getNumSamples()`) and the list of its
  channels.  Channel views (`AudioBlock`) alias the buffer in the source; here
  a processed view is written back into the buffer.
* A channel index outside the buffer (a failed `jassert` and an access outside
  the channel array in the source) makes the call fail with
  `AccessError.channelOutOfRange`.
* `juce::dsp::IIR::Filter` and `juce::dsp::ProcessorChain` are library
  classes used by the source through the aliases `filter`, `cutFilter` and
  `monoChain`; they are embedded with their library behaviour: a filter is a
  coefficient array and a delay line, a chain runs its processors one after the
  other over the same block.
-/

namespace SimpleEq

deriving instance DecidableEq for Except

/-! ## `juce::dsp::IIR::Filter` (the alias `filter`, PluginProcessor.h:65) -/

/-- One IIR filter stage: the raw coefficient array
`b0 … bN, a1 … aN` (already divided by `a0`) and the delay line, one entry per
filter order. -/
structure filter (α : Type) where
  coefficients : List α
  state : List α
deriving DecidableEq, Repr

/-- The processing loop shared by every processor of this file: thread a state
through the samples of a block, first sample first, collecting the outputs. -/
def runBlock {σ α : Type} (step : σ → α → σ × α) : σ → List α → σ × List α
  | s, [] => (s, [])
  | s, x :: xs =>
    let r := step s x
    let rest := runBlock step r.1 xs
    (rest.1, r.2 :: rest.2)

namespace filter

variable {α : Type}

/-- The default constructor of the filter: `Coefficients (1, 0, 1, 0)`, stored
without `a0` as `b0 = 1, b1 = 0, a1 = 0`, and a cleared first-order delay
line.  No line of the source assigns other coefficients. -/
def new [Zero α] [One α] : filter α :=
  { coefficients := [1, 0, 0], state := [0] }

/-- Embedding of `Coefficients::getFilterOrder`: `(size - 1) / 2`. -/
def getFilterOrder (f : filter α) : Nat :=
  (f.coefficients.length - 1) / 2

/-- Embedding of `Filter::reset`: a zeroed delay line of the order of the coefficients. -/
def reset [Zero α] (f : filter α) : filter α :=
  { f with state := List.replicate f.getFilterOrder 0 }

/-- Embedding of `Filter::check`: the delay line is reset when its size is not the order of
the current coefficients. -/
def check [Zero α] (f : filter α) : filter α :=
  if f.state.length = f.getFilterOrder then f else f.reset

/-- Embedding of `Filter::prepare`: resets the filter. -/
def prepare [Zero α] (f : filter α) : filter α :=
  f.reset

/-- Embedding of `Filter::processSample`, transposed direct form II:
`out = c[0]*x + state[0]`,
`state[j] = c[j+1]*x - c[order+j+1]*out + state[j+1]` for `j < order - 1` and
`state[order-1] = c[order]*x - c[2*order]*out`. -/
def processSample [CommRing α] (f : filter α) (sample : α) : filter α × α :=
  let g := f.check
  let c := g.coefficients
  let order := g.getFilterOrder
  let output := c.getD 0 0 * sample + g.state.getD 0 0
  let state := (List.range order).map fun j =>
    c.getD (j + 1) 0 * sample - c.getD (order + j + 1) 0 * output
      + (if j + 1 < order then g.state.getD (j + 1) 0 else 0)
  ({ g with state := state }, output)

/-- Embedding of `Filter::process` on a single-channel replacing context: `check ()`, then
every sample of the block in order. -/
def process [CommRing α] (f : filter α) (block : List α) : filter α × List α :=
  runBlock processSample f.check block

end filter

/-! ## `juce::dsp::ProcessorChain` (the aliases `cutFilter` and `monoChain`,
PluginProcessor.h:66-67) -/

/-- Embedding of `using cutFilter = juce::dsp::ProcessorChain<filter, filter, filter, filter>`:
the four processors `get<0> … get<3>`. -/
structure cutFilter (α : Type) where
  get0 : filter α
  get1 : filter α
  get2 : filter α
  get3 : filter α
deriving DecidableEq, Repr

namespace cutFilter

variable {α : Type}

/-- Four default-constructed filters. -/
def new [Zero α] [One α] : cutFilter α :=
  { get0 := filter.new, get1 := filter.new, get2 := filter.new, get3 := filter.new }

/-- Embedding of `ProcessorChain::prepare`: prepares every processor. -/
def prepare [Zero α] (c : cutFilter α) : cutFilter α :=
  { get0 := c.get0.prepare, get1 := c.get1.prepare,
    get2 := c.get2.prepare, get3 := c.get3.prepare }

/-- Embedding of `ProcessorChain::process` with a replacing context: processor 0 runs over
the whole block, then processor 1 over the block it left, and so on. -/
def process [CommRing α] (c : cutFilter α) (block : List α) : cutFilter α × List α :=
  let r0 := c.get0.process block
  let r1 := c.get1.process r0.2
  let r2 := c.get2.process r1.2
  let r3 := c.get3.process r2.2
  ({ get0 := r0.1, get1 := r1.1, get2 := r2.1, get3 := r3.1 }, r3.2)

/-- The filter stages of the chain, in index order. -/
def stages (c : cutFilter α) : List (filter α) :=
  [c.get0, c.get1, c.get2, c.get3]

end cutFilter

/-- Embedding of `using monoChain = juce::dsp::ProcessorChain<cutFilter, filter, cutFilter>`:
the three processors `get<0>`, `get<1>`, `get<2>`. -/
structure monoChain (α : Type) where
  get0 : cutFilter α
  get1 : filter α
  get2 : cutFilter α
deriving DecidableEq, Repr

namespace monoChain

variable {α : Type}

/-- The member chains as constructed with the processor. -/
def new [Zero α] [One α] : monoChain α :=
  { get0 := cutFilter.new, get1 := filter.new, get2 := cutFilter.new }

/-- Embedding of `ProcessorChain::prepare`: prepares every processor. -/
def prepare [Zero α] (c : monoChain α) : monoChain α :=
  { get0 := c.get0.prepare, get1 := c.get1.prepare, get2 := c.get2.prepare }

/-- Embedding of `ProcessorChain::process` with a replacing context: the first `cutFilter`
over the whole block, then the single filter, then the second `cutFilter`. -/
def process [CommRing α] (c : monoChain α) (block : List α) : monoChain α × List α :=
  let r0 := c.get0.process block
  let r1 := c.get1.process r0.2
  let r2 := c.get2.process r1.2
  ({ get0 := r0.1, get1 := r1.1, get2 := r2.1 }, r2.2)

/-- The filter stages of the chain, flattened in processing order. -/
def stages (c : monoChain α) : List (filter α) :=
  c.get0.stages ++ [c.get1] ++ c.get2.stages

/-- The coefficient arrays of the stages, in processing order. -/
def coefficientSets (c : monoChain α) : List (List α) :=
  c.stages.map filter.coefficients

end monoChain

/-! ## Parameter layout (`createParameterLayout`, PluginProcessor.cpp:229-304) -/

/-- Embedding of `juce::NormalisableRange<float> (rangeStart, rangeEnd, intervalValue, skewFactor)`. -/
structure NormalisableRange where
  rangeStart : ℚ
  rangeEnd : ℚ
  intervalValue : ℚ
  skewFactor : ℚ
deriving DecidableEq, Repr

/-- The two kinds of parameter the layout holds, with the constructor arguments
the source passes: `(parameterID, name, range, default)` for a float parameter,
`(parameterID, name, choices, defaultItemIndex)` for a choice parameter. -/
inductive RangedAudioParameter where
  | AudioParameterFloat (parameterID name : String)
      (normalisableRange : NormalisableRange) (defaultValue : ℚ)
  | AudioParameterChoice (parameterID name : String)
      (choices : List String) (defaultItemIndex : Nat)
deriving DecidableEq, Repr

namespace RangedAudioParameter

/-- The identifier of a parameter. -/
def parameterID : RangedAudioParameter → String
  | AudioParameterFloat parameterID _ _ _ => parameterID
  | AudioParameterChoice parameterID _ _ _ => parameterID

/-- The default value of a parameter; for a choice it is the item index. -/
def getDefaultValue : RangedAudioParameter → ℚ
  | AudioParameterFloat _ _ _ defaultValue => defaultValue
  | AudioParameterChoice _ _ _ defaultItemIndex => defaultItemIndex

end RangedAudioParameter

/-- The slope choices (PluginProcessor.cpp:234-241): for `i = 0 … 3` the
decimal text of `12 + i * 12` followed by `" dB/Oct"`, added in that order.
The loop header is written `for (int i = 0, i < 4; i++)` in the source and is
read as `for (int i = 0; i < 4; i++)`. -/
def cutSlopes : List String :=
  (List.range 4).foldl
    (fun cutSlopes i => cutSlopes ++ [toString (12 + (i * 12)) ++ " dB/Oct"]) []

/-- Embedding of `frequencyRange (20.f, 20000.f, 1.f, 1.f)` (PluginProcessor.cpp:245). -/
def frequencyRange : NormalisableRange :=
  { rangeStart := 20, rangeEnd := 20000, intervalValue := 1, skewFactor := 1 }

/-- Embedding of `gainRange (-24.f, 24.f, 0.5f, 1.f)` (PluginProcessor.cpp:249). -/
def gainRange : NormalisableRange :=
  { rangeStart := -24, rangeEnd := 24, intervalValue := 1 / 2, skewFactor := 1 }

/-- Embedding of `tightnessRange (0.1f, 10.f, 0.05f, 1.f)` (PluginProcessor.cpp:252). -/
def tightnessRange : NormalisableRange :=
  { rangeStart := 1 / 10, rangeEnd := 10, intervalValue := 1 / 20, skewFactor := 1 }

/-- Embedding of `createParameterLayout`: the seven `layout.add` calls in source order,
each with the range variable the source passes (PluginProcessor.cpp:256-301).
The unbalanced `)` of lines 260 and 267 are left out. -/
def createParameterLayout : List RangedAudioParameter :=
  [ .AudioParameterFloat "LowCut Frequency" "LowCut Frequency" frequencyRange 20,
    .AudioParameterFloat "HighCut Frequency" "HighCut Frequency" frequencyRange 20000,
    .AudioParameterFloat "Peak (1) Frequency" "Peak (1) Frequency" frequencyRange 1000,
    .AudioParameterFloat "Peak (1) Gain" "Peak (1) Gain" gainRange 0,
    .AudioParameterFloat "Peak (1) Tightness" "Peak (1) Tightness" gainRange 1,
    .AudioParameterChoice "LowCut Slope" "LowCut Slope" cutSlopes 0,
    .AudioParameterChoice "HighCut Slope" "HighCut Slope" cutSlopes 0 ]

/-- Look a parameter up by its identifier. -/
def getParameter (layout : List RangedAudioParameter) (parameterID : String) :
    Option RangedAudioParameter :=
  layout.find? fun p => p.parameterID == parameterID

/-- Embedding of `juce::AudioProcessorValueTreeState avpts` (PluginProcessor.h:60-63): the
current value of every parameter of the layout, in layout order. -/
structure AudioProcessorValueTreeState where
  values : List ℚ
deriving DecidableEq, Repr

/-- The tree state as constructed from a layout: every parameter at its default. -/
def AudioProcessorValueTreeState.new (layout : List RangedAudioParameter) :
    AudioProcessorValueTreeState :=
  { values := layout.map RangedAudioParameter.getDefaultValue }

/-! ## Bus layouts (`isBusesLayoutSupported`, PluginProcessor.cpp:122-146) -/

/-- Embedding of `juce::AudioChannelSet`: the set of channel types, as the bit set the
library keeps (bit `k` is channel type `k`; `left = 1`, `right = 2`,
`centre = 3`). -/
structure AudioChannelSet where
  channels : Nat
deriving DecidableEq, Repr

namespace AudioChannelSet

/-- Embedding of `AudioChannelSet::disabled ()`: no channel. -/
def disabled : AudioChannelSet := { channels := 0 }

/-- Embedding of `AudioChannelSet::mono ()`: the centre channel. -/
def mono : AudioChannelSet := { channels := 1 <<< 3 }

/-- Embedding of `AudioChannelSet::stereo ()`: the left and the right channel. -/
def stereo : AudioChannelSet := { channels := (1 <<< 1) ||| (1 <<< 2) }

end AudioChannelSet

/-- Embedding of `AudioProcessor::BusesLayout`: the channel sets of the input and of the
output buses. -/
structure BusesLayout where
  inputBuses : List AudioChannelSet
  outputBuses : List AudioChannelSet
deriving DecidableEq, Repr

namespace BusesLayout

/-- Embedding of `getMainInputChannelSet`: input bus 0, the empty set when there is none. -/
def getMainInputChannelSet (layouts : BusesLayout) : AudioChannelSet :=
  layouts.inputBuses.getD 0 AudioChannelSet.disabled

/-- Embedding of `getMainOutputChannelSet`: output bus 0, the empty set when there is none. -/
def getMainOutputChannelSet (layouts : BusesLayout) : AudioChannelSet :=
  layouts.outputBuses.getD 0 AudioChannelSet.disabled

end BusesLayout

/-- The preprocessor switches `isBusesLayoutSupported` is compiled under. -/
structure PluginConfig where
  JucePlugin_IsMidiEffect : Bool
  JucePlugin_IsSynth : Bool
deriving DecidableEq, Repr

/-- Embedding of `SimpleEqAudioProcessor::isBusesLayoutSupported`. -/
def isBusesLayoutSupported (cfg : PluginConfig) (layouts : BusesLayout) : Bool :=
  if cfg.JucePlugin_IsMidiEffect then
    true
  else if layouts.getMainOutputChannelSet ≠ AudioChannelSet.mono
      ∧ layouts.getMainOutputChannelSet ≠ AudioChannelSet.stereo then
    false
  else if ¬ cfg.JucePlugin_IsSynth
      ∧ layouts.getMainOutputChannelSet ≠ layouts.getMainInputChannelSet then
    false
  else
    true

/-! ## Audio buffers (`juce::AudioBuffer<float>`, `juce::dsp::AudioBlock<float>`) -/

/-- A channel index handed to the buffer that the buffer does not have. -/
inductive AccessError where
  | channelOutOfRange (channel numChannels : Nat)
deriving DecidableEq, Repr

/-- A multi-channel buffer: `size` is `getNumSamples ()`, `channels` the sample
arrays, one per channel. -/
structure AudioBuffer (α : Type) where
  size : Nat
  channels : List (List α)
deriving DecidableEq, Repr

namespace AudioBuffer

variable {α : Type}

/-- The number of channels of the buffer. -/
def getNumChannels (buffer : AudioBuffer α) : Nat :=
  buffer.channels.length

/-- The number of samples of every channel of the buffer. -/
def getNumSamples (buffer : AudioBuffer α) : Nat :=
  buffer.size

/-- The invariant of a buffer: every channel holds `size` samples. -/
def WellFormed (buffer : AudioBuffer α) : Prop :=
  ∀ c ∈ buffer.channels, c.length = buffer.size

instance (buffer : AudioBuffer α) : Decidable buffer.WellFormed :=
  inferInstanceAs (Decidable (∀ c ∈ buffer.channels, c.length = buffer.size))

/-- Zero the samples `startSample ≤ j < startSample + numSamples` of one channel. -/
def clearSamples [Zero α] : List α → Nat → Nat → List α
  | [], _, _ => []
  | x :: samples, 0, 0 => x :: samples
  | _ :: samples, 0, numSamples + 1 => 0 :: clearSamples samples 0 numSamples
  | x :: samples, startSample + 1, numSamples => x :: clearSamples samples startSample numSamples

/-- Embedding of `AudioBuffer::clear (channel, startSample, numSamples)`. -/
def clear [Zero α] (buffer : AudioBuffer α) (channel startSample numSamples : Nat) :
    Except AccessError (AudioBuffer α) :=
  if channel < buffer.getNumChannels then
    .ok { buffer with
      channels := buffer.channels.modify
        (fun samples => clearSamples samples startSample numSamples) channel }
  else
    .error (.channelOutOfRange channel buffer.getNumChannels)

/-- Embedding of `AudioBlock (buffer).getSingleChannelBlock (channel)`: the samples of one
channel of the buffer. -/
def getSingleChannelBlock (buffer : AudioBuffer α) (channel : Nat) :
    Except AccessError (List α) :=
  match buffer.channels[channel]? with
  | some samples => .ok samples
  | none => .error (.channelOutOfRange channel buffer.getNumChannels)

/-- Write the samples a replacing context produced for one channel back into
the buffer the block views. -/
def setChannel (buffer : AudioBuffer α) (channel : Nat) (samples : List α) : AudioBuffer α :=
  { buffer with channels := buffer.channels.set channel samples }

end AudioBuffer

/-! ## The processor (`SimpleEqAudioProcessor`, PluginProcessor.h:18-73) -/

/-- The state of a `SimpleEqAudioProcessor` the embedded methods read or
write: the channel totals of the current bus layout
(`getTotalNumInputChannels ()`, `getTotalNumOutputChannels ()`), the parameter
tree `avpts` and the two private chains. -/
structure SimpleEqAudioProcessor (α : Type) where
  totalNumInputChannels : Nat
  totalNumOutputChannels : Nat
  avpts : AudioProcessorValueTreeState
  leftChain : monoChain α
  rightChain : monoChain α
deriving DecidableEq, Repr

namespace SimpleEqAudioProcessor

variable {α : Type}

/-- The constructor (PluginProcessor.cpp:13-25): a stereo input and a stereo
output bus, `avpts` built from `createParameterLayout ()`, default chains. -/
def new [Zero α] [One α] : SimpleEqAudioProcessor α :=
  { totalNumInputChannels := 2
    totalNumOutputChannels := 2
    avpts := AudioProcessorValueTreeState.new createParameterLayout
    leftChain := monoChain.new
    rightChain := monoChain.new }

/-- Embedding of `prepareToPlay` (PluginProcessor.cpp:94-114): both chains are prepared with
a one-channel spec; the filters keep nothing of the spec but reset. -/
def prepareToPlay [Zero α] (p : SimpleEqAudioProcessor α)
    (_sampleRate : ℚ) (_samplesPerBlock : Nat) : SimpleEqAudioProcessor α :=
  { p with leftChain := p.leftChain.prepare, rightChain := p.rightChain.prepare }

/-- The loop of PluginProcessor.cpp:160-161,
`for (i = totalNumInputChannels; i < totalNumOutputChannels; ++i) buffer.clear (i, 0, buffer.getNumSamples ())`,
entered at `i` with `count` iterations left. -/
def clearLoop [Zero α] (buffer : AudioBuffer α) (i : Nat) :
    Nat → Except AccessError (AudioBuffer α)
  | 0 => .ok buffer
  | count + 1 =>
    match buffer.clear i 0 buffer.getNumSamples with
    | .ok cleared => clearLoop cleared (i + 1) count
    | .error e => .error e

/-- Embedding of `processBlock` (PluginProcessor.cpp:148-181).  The MIDI buffer is not read
by the source and is left out. -/
def processBlock [CommRing α] (p : SimpleEqAudioProcessor α) (buffer : AudioBuffer α) :
    Except AccessError (SimpleEqAudioProcessor α × AudioBuffer α) :=
  match clearLoop buffer p.totalNumInputChannels
      (p.totalNumOutputChannels - p.totalNumInputChannels) with
  | .error e => .error e
  | .ok block =>
    match block.getSingleChannelBlock 0 with
    | .error e => .error e
    | .ok leftBlock =>
      match block.getSingleChannelBlock 1 with
      | .error e => .error e
      | .ok rightBlock =>
        let left := p.leftChain.process leftBlock
        let right := p.rightChain.process rightBlock
        .ok ({ p with leftChain := left.1, rightChain := right.1 },
             (block.setChannel 0 left.2).setChannel 1 right.2)

/-- Embedding of `juce::MemoryBlock`: a growable array of bytes. -/
abbrev MemoryBlock := List Nat

/-- Embedding of `getStateInformation (destData)` (PluginProcessor.cpp:195-200): the body
holds comments only; the result is `destData` after the call. -/
def getStateInformation (_p : SimpleEqAudioProcessor α) (destData : MemoryBlock) :
    MemoryBlock :=
  destData

/-- Embedding of `setStateInformation (data, sizeInBytes)` (PluginProcessor.cpp:202-206):
the body holds comments only; the result is the processor after the call. -/
def setStateInformation (p : SimpleEqAudioProcessor α)
    (_data : MemoryBlock) (_sizeInBytes : Int) : SimpleEqAudioProcessor α :=
  p

end SimpleEqAudioProcessor

/-! ## The states of the program -/

/-- The processor states the program can be in: the constructed processor, and
whatever the embedded methods make of a state already reached.  The channel
totals are those of any bus layout at all (in the synth build there is no
input bus), the parameter values are any the host or the editor sets; the
chains are private and change through `prepareToPlay` and `processBlock`
only. -/
inductive Reachable {α : Type} [CommRing α] : SimpleEqAudioProcessor α → Prop where
  | constructed : Reachable SimpleEqAudioProcessor.new
  | prepared (p : SimpleEqAudioProcessor α) (sampleRate : ℚ) (samplesPerBlock : Nat) :
      Reachable p → Reachable (p.prepareToPlay sampleRate samplesPerBlock)
  | layoutChanged (p : SimpleEqAudioProcessor α) (numIn numOut : Nat) :
      Reachable p →
      Reachable { p with totalNumInputChannels := numIn, totalNumOutputChannels := numOut }
  | parameterChanged (p : SimpleEqAudioProcessor α) (avpts : AudioProcessorValueTreeState) :
      Reachable p → Reachable { p with avpts := avpts }
  | processed (p p' : SimpleEqAudioProcessor α) (buffer out : AudioBuffer α) :
      Reachable p → p.processBlock buffer = .ok (p', out) → Reachable p'
  | stateSet (p : SimpleEqAudioProcessor α) (data : SimpleEqAudioProcessor.MemoryBlock)
      (sizeInBytes : Int) :
      Reachable p → Reachable (p.setStateInformation data sizeInBytes)

/-! ## Sample-wise reading of the chains (spec §4.3, §4.4) -/

/-- The `check ()` every filter of a `cutFilter` runs when it enters `process`. -/
def cutFilter.check {α : Type} [Zero α] (c : cutFilter α) : cutFilter α :=
  { get0 := c.get0.check, get1 := c.get1.check, get2 := c.get2.check, get3 := c.get3.check }

/-- The `check ()` every filter of a `monoChain` runs when it enters `process`. -/
def monoChain.check {α : Type} [Zero α] (c : monoChain α) : monoChain α :=
  { get0 := c.get0.check, get1 := c.get1.check, get2 := c.get2.check }

/-- Spec §4.3, "`processSample(x)` runs x through all 4 stages in series":
one sample through the stages 0, 1, 2, 3 of a cascade, in index order. -/
def specCascadeProcessSample {α : Type} [CommRing α] (c : cutFilter α) (x : α) :
    cutFilter α × α :=
  let r0 := c.get0.processSample x
  let r1 := c.get1.processSample r0.2
  let r2 := c.get2.processSample r1.2
  let r3 := c.get3.processSample r2.2
  ({ get0 := r0.1, get1 := r1.1, get2 := r2.1, get3 := r3.1 }, r3.2)

/-- Spec §4.4, "`processSample(x)` threads x through low-cut → peak →
high-cut in that fixed order": one sample through the first cascade, the single
filter and the second cascade. -/
def specChainProcessSample {α : Type} [CommRing α] (c : monoChain α) (x : α) :
    monoChain α × α :=
  let lowCut := specCascadeProcessSample c.get0 x
  let peak := c.get1.processSample lowCut.2
  let highCut := specCascadeProcessSample c.get2 peak.2
  ({ get0 := lowCut.1, get1 := peak.1, get2 := highCut.1 }, highCut.2)

/-! ## Concrete processors, buffers and parameter values -/

/-- A processor as constructed and prepared (44.1 kHz, blocks of 512), over
integer samples: stereo in, stereo out, every filter `[1, 0, 0]` with a zero
delay line. -/
def preparedProcessor : SimpleEqAudioProcessor Int :=
  (SimpleEqAudioProcessor.new).prepareToPlay 44100 512

/-- The prepared processor under the mono layout (one input, one output
channel), a layout `isBusesLayoutSupported` accepts. -/
def monoProcessor : SimpleEqAudioProcessor Int :=
  { preparedProcessor with totalNumInputChannels := 1, totalNumOutputChannels := 1 }

/-- A stereo processor that differs from the prepared one in its right chain only. -/
def otherProcessor : SimpleEqAudioProcessor Int :=
  { preparedProcessor with
    rightChain :=
      { preparedProcessor.rightChain with get1 := { coefficients := [2, 1, 0], state := [5] } } }

/-- The prepared processor with no input and two output channels (the totals
of the synth build, which has no input bus). -/
def synthProcessor : SimpleEqAudioProcessor Int :=
  { preparedProcessor with totalNumInputChannels := 0, totalNumOutputChannels := 2 }

/-- A one-channel buffer of two samples. -/
def monoBuffer : AudioBuffer Int := { size := 2, channels := [[1, 2]] }

/-- A two-channel buffer of two samples. -/
def stereoBuffer : AudioBuffer Int := { size := 2, channels := [[1, 2], [3, 4]] }

/-- The default parameter values with "Peak (1) Gain" moved from 0 to 6. -/
def gainSixParameters : AudioProcessorValueTreeState :=
  { values := [20, 20000, 1000, 6, 1, 0, 0] }

/-! ## Lemmas -/

variable {α : Type}

section runBlock
variable {σ : Type}

@[simp] theorem runBlock_nil (step : σ → α → σ × α) (s : σ) : runBlock step s [] = (s, []) := rfl

@[simp] theorem runBlock_cons (step : σ → α → σ × α) (s : σ) (x : α) (xs : List α) :
    runBlock step s (x :: xs)
      = ((runBlock step (step s x).1 xs).1, (step s x).2 :: (runBlock step (step s x).1 xs).2) := rfl

theorem runBlock_invariant (step : σ → α → σ × α) (I : σ → Prop)
    (hstep : ∀ s x, I s → I (step s x).1) (s : σ) (xs : List α) (hs : I s) :
    I (runBlock step s xs).1 := by
  induction xs generalizing s with
  | nil => exact hs
  | cons x xs ih => exact ih _ (hstep s x hs)

end runBlock

section

open filter

theorem filter_check_coefficients [Zero α] (f : filter α) : f.check.coefficients = f.coefficients := by
  unfold check reset
  split <;> rfl

theorem filter_check_state_length [Zero α] (f : filter α) :
    f.check.state.length = f.check.getFilterOrder := by
  unfold check
  split
  · assumption
  · simp [reset, getFilterOrder]

theorem filter_check_check [Zero α] (f : filter α) : f.check.check = f.check := by
  have h := filter_check_state_length f
  show (if f.check.state.length = f.check.getFilterOrder then f.check else f.check.reset)
    = f.check
  rw [if_pos h]

theorem filter_processSample_check [CommRing α] (f : filter α) (x : α) :
    processSample f.check x = processSample f x := by
  simp [processSample, filter_check_check]

theorem filter_processSample_coefficients [CommRing α] (f : filter α) (x : α) :
    (processSample f x).1.coefficients = f.coefficients := by
  simp [processSample, filter_check_coefficients]

theorem filter_process_coefficients [CommRing α] (f : filter α) (block : List α) :
    (process f block).1.coefficients = f.coefficients := by
  have h := runBlock_invariant processSample (fun g => g.coefficients = f.coefficients)
    (fun s x hs => by simp only [filter_processSample_coefficients, hs]) f.check block
    (filter_check_coefficients f)
  exact h

end


section

open cutFilter

theorem cutFilter_run_stages [CommRing α] (c : cutFilter α) (block : List α) :
    (({ get0 := (runBlock filter.processSample c.get0 block).1
        get1 := (runBlock filter.processSample c.get1
                  (runBlock filter.processSample c.get0 block).2).1
        get2 := (runBlock filter.processSample c.get2
                  (runBlock filter.processSample c.get1
                    (runBlock filter.processSample c.get0 block).2).2).1
        get3 := (runBlock filter.processSample c.get3
                  (runBlock filter.processSample c.get2
                    (runBlock filter.processSample c.get1
                      (runBlock filter.processSample c.get0 block).2).2).2).1 } : cutFilter α),
      (runBlock filter.processSample c.get3
        (runBlock filter.processSample c.get2
          (runBlock filter.processSample c.get1
            (runBlock filter.processSample c.get0 block).2).2).2).2)
      = runBlock specCascadeProcessSample c block := by
  induction block generalizing c with
  | nil => rfl
  | cons x xs ih =>
    have h := ih (specCascadeProcessSample c x).1
    simp only [runBlock_cons]
    rw [← h]
    rfl

theorem cutFilter_process_eq_runBlock [CommRing α] (c : cutFilter α) (block : List α) :
    process c block = runBlock specCascadeProcessSample c.check block :=
  cutFilter_run_stages c.check block

theorem cutFilter_specCascadeProcessSample_check [CommRing α] (c : cutFilter α) (x : α) :
    specCascadeProcessSample c.check x = specCascadeProcessSample c x := by
  simp [specCascadeProcessSample, check, filter_processSample_check]

theorem cutFilter_process_cons [CommRing α] (c : cutFilter α) (x : α) (xs : List α) :
    process c (x :: xs) = runBlock specCascadeProcessSample c (x :: xs) := by
  rw [cutFilter_process_eq_runBlock]
  simp [cutFilter_specCascadeProcessSample_check]

end

section

open monoChain

theorem monoChain_run_stages [CommRing α] (c : monoChain α) (block : List α) :
    (({ get0 := (runBlock specCascadeProcessSample c.get0 block).1
        get1 := (runBlock filter.processSample c.get1
                  (runBlock specCascadeProcessSample c.get0 block).2).1
        get2 := (runBlock specCascadeProcessSample c.get2
                  (runBlock filter.processSample c.get1
                    (runBlock specCascadeProcessSample c.get0 block).2).2).1 } : monoChain α),
      (runBlock specCascadeProcessSample c.get2
        (runBlock filter.processSample c.get1
          (runBlock specCascadeProcessSample c.get0 block).2).2).2)
      = runBlock specChainProcessSample c block := by
  induction block generalizing c with
  | nil => rfl
  | cons x xs ih =>
    have h := ih (specChainProcessSample c x).1
    simp only [runBlock_cons]
    rw [← h]
    rfl

theorem monoChain_process_eq_runBlock [CommRing α] (c : monoChain α) (block : List α) :
    process c block = runBlock specChainProcessSample c.check block := by
  have h := monoChain_run_stages c.check block
  rw [← h]
  simp only [process, cutFilter_process_eq_runBlock, filter.process, check]

theorem monoChain_specChainProcessSample_check [CommRing α] (c : monoChain α) (x : α) :
    specChainProcessSample c.check x = specChainProcessSample c x := by
  simp [specChainProcessSample, check, filter_processSample_check,
    cutFilter_specCascadeProcessSample_check]

theorem monoChain_process_cons [CommRing α] (c : monoChain α) (x : α) (xs : List α) :
    process c (x :: xs) = runBlock specChainProcessSample c (x :: xs) := by
  rw [monoChain_process_eq_runBlock]
  simp [monoChain_specChainProcessSample_check]

theorem monoChain_process_nil [CommRing α] (c : monoChain α) : process c [] = (c.check, []) := by
  rw [monoChain_process_eq_runBlock]; rfl

end

section

open AudioBuffer

theorem clearSamples_all [Zero α] (samples : List α) (numSamples : Nat)
    (h : samples.length ≤ numSamples) :
    clearSamples samples 0 numSamples = List.replicate samples.length 0 := by
  induction samples generalizing numSamples with
  | nil => cases numSamples <;> rfl
  | cons x xs ih =>
    cases numSamples with
    | zero => simp at h
    | succ n =>
      have hx : xs.length ≤ n := by simpa using h
      simp [clearSamples, ih n hx, List.replicate_succ]

theorem clear_ok [Zero α] (buffer : AudioBuffer α) (channel startSample numSamples : Nat)
    (h : channel < buffer.channels.length) :
    buffer.clear channel startSample numSamples
      = .ok { buffer with
          channels := buffer.channels.modify
            (fun samples => clearSamples samples startSample numSamples) channel } := by
  simp [clear, getNumChannels, h]

theorem clear_error [Zero α] (buffer : AudioBuffer α) (channel startSample numSamples : Nat)
    (h : buffer.channels.length ≤ channel) :
    buffer.clear channel startSample numSamples
      = .error (.channelOutOfRange channel buffer.channels.length) := by
  simp [clear, getNumChannels, Nat.not_lt.mpr h]

end

section

open SimpleEqAudioProcessor

open AudioBuffer

theorem clearLoop_ok [Zero α] (count : Nat) (buffer : AudioBuffer α) (i : Nat)
    (h : i + count ≤ buffer.channels.length) :
    ∃ block, clearLoop buffer i count = .ok block
      ∧ block.size = buffer.size
      ∧ block.channels.length = buffer.channels.length
      ∧ ∀ k, block.channels[k]? = (buffer.channels[k]?).map fun samples =>
          if i ≤ k ∧ k < i + count then clearSamples samples 0 buffer.size else samples := by
  induction count generalizing buffer i with
  | zero =>
    refine ⟨buffer, rfl, rfl, rfl, fun k => ?_⟩
    have : ¬ (i ≤ k ∧ k < i) := by omega
    simp [this]
  | succ count ih =>
    have hi : i < buffer.channels.length := by omega
    obtain ⟨block, hb, hsize, hlen, hget⟩ :=
      ih { buffer with
            channels := buffer.channels.modify
              (fun samples => clearSamples samples 0 buffer.size) i } (i + 1)
        (by simp; omega)
    refine ⟨block, ?_, hsize, by simpa using hlen, fun k => ?_⟩
    · simp only [clearLoop, getNumSamples, clear_ok buffer i 0 buffer.size hi]
      exact hb
    · rw [hget k]
      simp only [List.getElem?_modify]
      cases hk : buffer.channels[k]? with
      | none => simp
      | some samples =>
        by_cases h1 : i = k
        · subst h1
          have : ¬ (i + 1 ≤ i ∧ i < i + 1 + count) := by omega
          simp [this]
        · by_cases h2 : i + 1 ≤ k ∧ k < i + 1 + count
          · have : i ≤ k ∧ k < i + (count + 1) := by omega
            simp [h1, h2, this]
          · have : ¬ (i ≤ k ∧ k < i + (count + 1)) := by omega
            simp [h1, h2, this]

theorem clearLoop_length [Zero α] (count : Nat) (buffer block : AudioBuffer α) (i : Nat)
    (h : clearLoop buffer i count = .ok block) :
    block.channels.length = buffer.channels.length := by
  induction count generalizing buffer i with
  | zero =>
    simp only [clearLoop, Except.ok.injEq] at h
    rw [h]
  | succ count ih =>
    by_cases hi : i < buffer.channels.length
    · simp only [clearLoop, getNumSamples, clear_ok buffer i 0 buffer.size hi] at h
      simpa using ih _ _ h
    · simp [clearLoop, clear_error buffer i 0 _ (Nat.not_lt.mp hi)] at h

theorem clearLoop_error [Zero α] (count : Nat) (buffer : AudioBuffer α) (i : Nat)
    (e : AccessError) (h : clearLoop buffer i count = .error e) :
    ∃ channel, buffer.channels.length ≤ channel ∧ i ≤ channel
      ∧ e = .channelOutOfRange channel buffer.channels.length := by
  induction count generalizing buffer i with
  | zero => simp [clearLoop] at h
  | succ count ih =>
    by_cases hi : i < buffer.channels.length
    · simp only [clearLoop, getNumSamples, clear_ok buffer i 0 buffer.size hi] at h
      obtain ⟨channel, h1, h2, h3⟩ := ih _ _ h
      exact ⟨channel, by simpa using h1, by omega, by simpa using h3⟩
    · have hi' := Nat.not_lt.mp hi
      simp only [clearLoop, clear_error buffer i 0 _ hi', Except.error.injEq] at h
      exact ⟨i, hi', Nat.le_refl i, h.symm⟩


theorem processBlock_of_clearLoop [CommRing α] (p : SimpleEqAudioProcessor α)
    (buffer block : AudioBuffer α) (L R : List α) (rest : List (List α))
    (hb : clearLoop buffer p.totalNumInputChannels
            (p.totalNumOutputChannels - p.totalNumInputChannels) = .ok block)
    (hch : block.channels = L :: R :: rest) :
    processBlock p buffer
      = .ok ({ p with leftChain := (p.leftChain.process L).1,
                      rightChain := (p.rightChain.process R).1 },
             { size := block.size
               channels := (p.leftChain.process L).2 :: (p.rightChain.process R).2 :: rest }) := by
  simp [processBlock, hb, getSingleChannelBlock, hch, setChannel]

theorem processBlock_ok [CommRing α] (p : SimpleEqAudioProcessor α) (buffer : AudioBuffer α)
    (h2 : 2 ≤ buffer.getNumChannels)
    (hout : p.totalNumOutputChannels ≤ buffer.getNumChannels) :
    ∃ L R rest,
      buffer.channels.length = rest.length + 2
      ∧ (∀ k, (L :: R :: rest)[k]? = (buffer.channels[k]?).map fun samples =>
          if p.totalNumInputChannels ≤ k ∧ k < p.totalNumOutputChannels then
            clearSamples samples 0 buffer.size else samples)
      ∧ processBlock p buffer
        = .ok ({ p with leftChain := (p.leftChain.process L).1,
                        rightChain := (p.rightChain.process R).1 },
               { size := buffer.size
                 channels :=
                   (p.leftChain.process L).2 :: (p.rightChain.process R).2 :: rest }) := by
  unfold getNumChannels at h2 hout
  have hloop : ∃ block, clearLoop buffer p.totalNumInputChannels
        (p.totalNumOutputChannels - p.totalNumInputChannels) = .ok block
      ∧ block.size = buffer.size
      ∧ block.channels.length = buffer.channels.length
      ∧ ∀ k, block.channels[k]? = (buffer.channels[k]?).map fun samples =>
          if p.totalNumInputChannels ≤ k ∧ k < p.totalNumOutputChannels then
            clearSamples samples 0 buffer.size else samples := by
    by_cases hio : p.totalNumOutputChannels ≤ p.totalNumInputChannels
    · refine ⟨buffer, ?_, rfl, rfl, fun k => ?_⟩
      · rw [Nat.sub_eq_zero_of_le hio]; rfl
      · have : ¬ (p.totalNumInputChannels ≤ k ∧ k < p.totalNumOutputChannels) := by omega
        simp [this]
    · have hsum : p.totalNumInputChannels
          + (p.totalNumOutputChannels - p.totalNumInputChannels)
          = p.totalNumOutputChannels := by omega
      have := clearLoop_ok (p.totalNumOutputChannels - p.totalNumInputChannels) buffer
        p.totalNumInputChannels (by omega)
      rw [hsum] at this
      exact this
  obtain ⟨block, hb, hsize, hlen, hget⟩ := hloop
  obtain ⟨size', channels'⟩ := block
  match channels', hlen, hget, hb with
  | [], hlen, _, _ => simp at hlen; omega
  | [_], hlen, _, _ => simp at hlen; omega
  | L :: R :: rest, hlen, hget, hb =>
    refine ⟨L, R, rest, by simpa using hlen.symm, hget, ?_⟩
    have := processBlock_of_clearLoop p buffer _ L R rest hb rfl
    simp only at hsize
    rw [this, hsize]

end


section

open filter

theorem filter_reset_check [Zero α] (f : filter α) : f.reset.check = f.reset := by
  have h : f.reset.state.length = f.reset.getFilterOrder := by simp [reset, getFilterOrder]
  show (if f.reset.state.length = f.reset.getFilterOrder then f.reset else f.reset.reset)
    = f.reset
  rw [if_pos h]

theorem filter_processSample_reset_zero [CommRing α] (f : filter α) :
    processSample f.reset 0 = (f.reset, 0) := by
  have hc := filter_reset_check f
  simp only [processSample, hc]
  have hs : f.reset.state = List.replicate f.getFilterOrder 0 := rfl
  have hg : ∀ k, f.reset.state.getD k 0 = 0 := by
    intro k
    rw [hs, List.getD_eq_getElem?_getD]
    exact List.getElem?_getD_replicate_default_eq _ _ _
  have ho : f.reset.getFilterOrder = f.getFilterOrder := rfl
  simp only [hg, mul_zero, add_zero, sub_zero, ite_self, ho, Prod.mk.injEq, and_true]
  show ({ coefficients := f.coefficients, state := _ } : filter α) = _
  simp [reset]

end

theorem runBlock_fixed {σ : Type} (step : σ → α → σ × α) (s : σ) (x y : α)
    (h : step s x = (s, y)) (n : Nat) :
    runBlock step s (List.replicate n x) = (s, List.replicate n y) := by
  induction n with
  | zero => rfl
  | succ n ih => simp [List.replicate_succ, h, ih]

section

open filter

theorem filter_process_reset_zeros [CommRing α] (f : filter α) (n : Nat) :
    process f.reset (List.replicate n 0) = (f.reset, List.replicate n 0) := by
  rw [process, filter_reset_check]
  exact runBlock_fixed _ _ _ _ (filter_processSample_reset_zero f) n

end

theorem monoChain_process_prepare_zeros [CommRing α] (c : monoChain α) (n : Nat) :
    c.prepare.process (List.replicate n 0) = (c.prepare, List.replicate n 0) := by
  simp [monoChain.process, monoChain.prepare, cutFilter.process, cutFilter.prepare,
    filter.prepare, filter_process_reset_zeros]


theorem monoChain_process_coefficientSets [CommRing α] (c : monoChain α) (block : List α) :
    (c.process block).1.coefficientSets = c.coefficientSets := by
  simp [monoChain.process, monoChain.coefficientSets, monoChain.stages, cutFilter.stages,
    cutFilter.process, filter_process_coefficients]

section

open AudioBuffer SimpleEqAudioProcessor

/-- On a well-formed buffer that has the channels the call touches,
`processBlock` returns; a channel `i ≥ 2` in the cleared range is all zeros, and
channel 0 or 1 in the cleared range holds what its chain makes of a block of
zeros, which is a block of zeros when the chain is in its prepared state. -/
theorem processBlock_cleared_channels [CommRing α]
    (p : SimpleEqAudioProcessor α) (buffer : AudioBuffer α)
    (hwf : buffer.WellFormed)
    (h2 : 2 ≤ buffer.getNumChannels)
    (hout : p.totalNumOutputChannels ≤ buffer.getNumChannels) :
    ∃ p' out, processBlock p buffer = .ok (p', out)
      ∧ (∀ i, p.totalNumInputChannels ≤ i → i < p.totalNumOutputChannels → 2 ≤ i →
          out.channels[i]? = some (List.replicate buffer.size 0))
      ∧ (p.totalNumInputChannels ≤ 0 → 0 < p.totalNumOutputChannels →
          out.channels[0]? = some (p.leftChain.process (List.replicate buffer.size 0)).2)
      ∧ (p.totalNumInputChannels ≤ 1 → 1 < p.totalNumOutputChannels →
          out.channels[1]? = some (p.rightChain.process (List.replicate buffer.size 0)).2)
      ∧ (p.totalNumInputChannels ≤ 0 → 0 < p.totalNumOutputChannels →
          p.leftChain = p.leftChain.prepare →
          out.channels[0]? = some (List.replicate buffer.size 0))
      ∧ (p.totalNumInputChannels ≤ 1 → 1 < p.totalNumOutputChannels →
          p.rightChain = p.rightChain.prepare →
          out.channels[1]? = some (List.replicate buffer.size 0)) := by
  obtain ⟨L, R, rest, hlen, hget, hpb⟩ := processBlock_ok p buffer h2 hout
  have hcleared : ∀ k, p.totalNumInputChannels ≤ k → k < p.totalNumOutputChannels →
      (L :: R :: rest)[k]? = some (List.replicate buffer.size 0) := by
    intro k hk1 hk2
    have hk : k < buffer.channels.length := Nat.lt_of_lt_of_le hk2 hout
    rw [hget k, List.getElem?_eq_getElem hk]
    have hmem : buffer.channels[k] ∈ buffer.channels := List.getElem_mem hk
    have hl := hwf _ hmem
    simp only [Option.map_some', hk1, hk2, and_self, if_true]
    rw [clearSamples_all _ _ (Nat.le_of_eq hl), hl]
  refine ⟨_, _, hpb, ?_, ?_, ?_, ?_, ?_⟩
  · intro i hi1 hi2 hi3
    obtain ⟨j, rfl⟩ : ∃ j, i = j + 2 := ⟨i - 2, by omega⟩
    have := hcleared (j + 2) hi1 hi2
    simpa using this
  · intro h0 h1
    have := hcleared 0 h0 h1
    simp only [List.getElem?_cons_zero, Option.some.injEq] at this
    simp [this]
  · intro h0 h1
    have := hcleared 1 h0 h1
    simp only [List.getElem?_cons_succ, List.getElem?_cons_zero, Option.some.injEq] at this
    simp [this]
  · intro h0 h1 hprep
    have := hcleared 0 h0 h1
    simp only [List.getElem?_cons_zero, Option.some.injEq] at this
    rw [this, hprep, monoChain_process_prepare_zeros]
    simp
  · intro h0 h1 hprep
    have := hcleared 1 h0 h1
    simp only [List.getElem?_cons_succ, List.getElem?_cons_zero, Option.some.injEq] at this
    rw [this, hprep, monoChain_process_prepare_zeros]
    simp


theorem runBlock_identity {σ : Type} (step : σ → α → σ × α) (s : σ)
    (h : ∀ x, step s x = (s, x)) (xs : List α) :
    runBlock step s xs = (s, xs) := by
  induction xs with
  | nil => rfl
  | cons x xs ih => simp [h, ih]

theorem filter_new_check [CommRing α] : (filter.new : filter α).check = filter.new := by
  simp [filter.check, filter.new, filter.getFilterOrder]

theorem filter_new_processSample [CommRing α] (x : α) :
    filter.processSample filter.new x = (filter.new, x) := by
  simp [filter.processSample, filter_new_check]
  simp [filter.new, filter.getFilterOrder, List.range, List.range.loop]

theorem filter_new_process [CommRing α] (block : List α) :
    filter.process filter.new block = (filter.new, block) := by
  rw [filter.process, filter_new_check]
  exact runBlock_identity _ _ filter_new_processSample block

theorem filter_new_prepare [CommRing α] : (filter.new : filter α).prepare = filter.new := by
  simp [filter.prepare, filter.reset, filter.new, filter.getFilterOrder]

theorem monoChain_new_process [CommRing α] (block : List α) :
    monoChain.process monoChain.new block = (monoChain.new, block) := by
  simp [monoChain.process, monoChain.new, cutFilter.process, cutFilter.new, filter_new_process]

theorem monoChain_new_prepare [CommRing α] :
    (monoChain.new : monoChain α).prepare = monoChain.new := by
  simp [monoChain.prepare, monoChain.new, cutFilter.prepare, cutFilter.new, filter_new_prepare]

theorem processBlock_chains [CommRing α] (p p' : SimpleEqAudioProcessor α)
    (buffer out : AudioBuffer α) (h : processBlock p buffer = .ok (p', out)) :
    ∃ L R, p' = { p with leftChain := (p.leftChain.process L).1,
                         rightChain := (p.rightChain.process R).1 } := by
  unfold processBlock at h
  split at h
  · simp at h
  · split at h
    · simp at h
    · split at h
      · simp at h
      · simp only [Except.ok.injEq, Prod.mk.injEq] at h
        exact ⟨_, _, h.1.symm⟩

theorem reachable_chains [CommRing α] (p : SimpleEqAudioProcessor α) (hp : Reachable p) :
    p.leftChain = monoChain.new ∧ p.rightChain = monoChain.new := by
  induction hp with
  | constructed => exact ⟨rfl, rfl⟩
  | prepared p _ _ _ ih =>
    simp only [prepareToPlay, ih.1, ih.2, monoChain_new_prepare, and_self]
  | layoutChanged p _ _ _ ih => exact ih
  | parameterChanged p _ _ ih => exact ih
  | processed p p' buffer out _ hok ih =>
    obtain ⟨L, R, rfl⟩ := processBlock_chains p p' buffer out hok
    simp only [ih.1, ih.2, monoChain_new_process, and_self]
  | stateSet p _ _ _ ih => exact ih

theorem clearLoop_ok_bound [Zero α] (count : Nat) (buffer block : AudioBuffer α) (i : Nat)
    (hc : count ≠ 0) (h : clearLoop buffer i count = .ok block) :
    i + count ≤ buffer.channels.length := by
  induction count generalizing buffer i with
  | zero => exact absurd rfl hc
  | succ count ih =>
    by_cases hi : i < buffer.channels.length
    · simp only [clearLoop, getNumSamples, clear_ok buffer i 0 buffer.size hi] at h
      by_cases hz : count = 0
      · subst hz; omega
      · have := ih _ _ hz h
        simp only [List.length_modify] at this
        omega
    · simp [clearLoop, clear_error buffer i 0 _ (Nat.not_lt.mp hi)] at h

theorem processBlock_ok_channels [CommRing α] (p p' : SimpleEqAudioProcessor α)
    (buffer out : AudioBuffer α) (h : processBlock p buffer = .ok (p', out)) :
    2 ≤ buffer.getNumChannels
      ∧ (p.totalNumInputChannels < p.totalNumOutputChannels →
          p.totalNumOutputChannels ≤ buffer.getNumChannels) := by
  unfold processBlock at h
  split at h
  · simp at h
  · rename_i block hloop
    have hlen := clearLoop_length _ _ _ _ hloop
    refine ⟨?_, ?_⟩
    · split at h
      · simp at h
      · split at h
        · simp at h
        · rename_i hR
          unfold getSingleChannelBlock at hR
          split at hR
          · rename_i samples hs
            have := (List.getElem?_eq_some_iff.mp hs).1
            unfold getNumChannels
            omega
          · simp at hR
    · intro hlt
      have := clearLoop_ok_bound _ _ _ _ (by omega) hloop
      unfold getNumChannels
      omega


end

/-! ## The claims -/

open AudioBuffer SimpleEqAudioProcessor

/-- C1: the claim says that on a mono buffer `processBlock` completes by
processing channel 0 only and never requests channel index 1.  The code
requests channel 1 whatever the buffer is: on every one-channel buffer and for
every processor state the call fails on a channel index `≥ 1` that the buffer
does not have; under the mono layout (one input, one output) the failing
request is `getSingleChannelBlock (1)`, before either chain has run; so it is
for the prepared mono processor on the buffer `[[1, 2]]`. -/
theorem processBlock_mono_requests_channel_one [CommRing α]
    (p : SimpleEqAudioProcessor α) (size : Nat) (samples : List α) :
    (∃ channel, 1 ≤ channel
        ∧ processBlock p { size := size, channels := [samples] }
          = .error (.channelOutOfRange channel 1))
      ∧ processBlock { p with totalNumInputChannels := 1, totalNumOutputChannels := 1 }
          { size := size, channels := [samples] }
        = .error (.channelOutOfRange 1 1)
      ∧ processBlock monoProcessor monoBuffer = .error (.channelOutOfRange 1 1) := by
  refine ⟨?_, ?_, by decide⟩
  · cases hloop : clearLoop ({ size := size, channels := [samples] } : AudioBuffer α)
        p.totalNumInputChannels (p.totalNumOutputChannels - p.totalNumInputChannels) with
    | error e =>
      obtain ⟨channel, h1, _, h3⟩ := clearLoop_error _ _ _ _ hloop
      refine ⟨channel, by simpa using h1, ?_⟩
      simp only [processBlock, hloop, h3]
      rfl
    | ok block =>
      have hlen := clearLoop_length _ _ _ _ hloop
      obtain ⟨size', channels'⟩ := block
      match channels', hlen with
      | [one], _ =>
        refine ⟨1, Nat.le_refl 1, ?_⟩
        simp [processBlock, hloop, getSingleChannelBlock, getNumChannels]
      | [], hlen => simp at hlen
      | _ :: _ :: _, hlen => simp at hlen
  · simp [processBlock, clearLoop, getSingleChannelBlock, getNumChannels]

/-- C2: for every state the program can put the processor in, whatever the
channel totals and whatever the well-formed buffer holds: when `processBlock`
returns, every channel index `i` with
`totalNumInputChannels ≤ i < totalNumOutputChannels` holds `size` samples that
are all 0; and `processBlock` does return when the buffer has at least two
channels and at least `totalNumOutputChannels` channels.  In every such state
both chains are the chains of the constructor, whose filters pass their input
through and keep a zero delay line, so the cleared channels 0 and 1 stay
silent through the chains. -/
theorem processBlock_clears_unprocessed_outputs [CommRing α]
    (p : SimpleEqAudioProcessor α) (buffer : AudioBuffer α)
    (hp : Reachable p) (hwf : buffer.WellFormed) :
    (2 ≤ buffer.getNumChannels → p.totalNumOutputChannels ≤ buffer.getNumChannels →
        ∃ p' out, processBlock p buffer = .ok (p', out))
      ∧ ∀ p' out, processBlock p buffer = .ok (p', out) →
          ∀ i, p.totalNumInputChannels ≤ i → i < p.totalNumOutputChannels →
            out.channels[i]? = some (List.replicate buffer.size 0) := by
  obtain ⟨hl, hr⟩ := reachable_chains p hp
  refine ⟨fun h2 hout => ?_, fun p' out hok i hi1 hi2 => ?_⟩
  · obtain ⟨p', out, h, _⟩ := processBlock_cleared_channels p buffer hwf h2 hout
    exact ⟨p', out, h⟩
  · obtain ⟨h2, hout⟩ := processBlock_ok_channels p p' buffer out hok
    obtain ⟨p'', out'', h, hge, _, _, h0, h1⟩ :=
      processBlock_cleared_channels p buffer hwf h2 (hout (by omega))
    rw [hok] at h
    simp only [Except.ok.injEq, Prod.mk.injEq] at h
    obtain ⟨_, rfl⟩ := h
    match i, hi1, hi2 with
    | 0, hi1, hi2 => exact h0 hi1 hi2 (by rw [hl, monoChain_new_prepare])
    | 1, hi1, hi2 => exact h1 hi1 hi2 (by rw [hr, monoChain_new_prepare])
    | i + 2, hi1, hi2 => exact hge (i + 2) hi1 hi2 (by omega)

/-- C2 at a concrete input: no input and two output channels on the stereo
buffer `[[1, 2], [3, 4]]`; both channels are in the cleared range. -/
theorem processBlock_clears_unprocessed_outputs_witness :
    Reachable synthProcessor ∧ stereoBuffer.WellFormed
      ∧ (2 ≤ stereoBuffer.getNumChannels →
          synthProcessor.totalNumOutputChannels ≤ stereoBuffer.getNumChannels →
          ∃ p' out, processBlock synthProcessor stereoBuffer = .ok (p', out))
      ∧ ∀ p' out, processBlock synthProcessor stereoBuffer = .ok (p', out) →
          ∀ i, synthProcessor.totalNumInputChannels ≤ i →
            i < synthProcessor.totalNumOutputChannels →
            out.channels[i]? = some (List.replicate stereoBuffer.size 0) :=
  ⟨Reachable.layoutChanged _ 0 2 (Reachable.prepared _ 44100 512 Reachable.constructed),
    by decide,
    processBlock_clears_unprocessed_outputs synthProcessor stereoBuffer
      (Reachable.layoutChanged _ 0 2 (Reachable.prepared _ 44100 512 Reachable.constructed))
      (by decide)⟩

/-- C3: channel independence on a stereo buffer when no channel is cleared
(`totalNumOutputChannels ≤ totalNumInputChannels`, as in the stereo layout).
`processBlock` returns; the output is the pair of what each chain makes of
its own channel and each chain ends in the state its own channel leaves it in;
two runs that agree on the left samples and the left chain agree on the left
output and the final left chain, whatever the right samples and right chains
are, and symmetrically for the right channel. -/
theorem processBlock_channel_independence [CommRing α]
    (p q : SimpleEqAudioProcessor α) (sizeP sizeQ : Nat) (leftP rightP leftQ rightQ : List α)
    (hp : p.totalNumOutputChannels ≤ p.totalNumInputChannels)
    (hq : q.totalNumOutputChannels ≤ q.totalNumInputChannels) :
    ∃ p' outP q' outQ,
      processBlock p { size := sizeP, channels := [leftP, rightP] } = .ok (p', outP)
      ∧ processBlock q { size := sizeQ, channels := [leftQ, rightQ] } = .ok (q', outQ)
      ∧ outP.channels = [(p.leftChain.process leftP).2, (p.rightChain.process rightP).2]
      ∧ p'.leftChain = (p.leftChain.process leftP).1
      ∧ p'.rightChain = (p.rightChain.process rightP).1
      ∧ (p.leftChain = q.leftChain → leftP = leftQ →
          p'.leftChain = q'.leftChain ∧ outP.channels[0]? = outQ.channels[0]?)
      ∧ (p.rightChain = q.rightChain → rightP = rightQ →
          p'.rightChain = q'.rightChain ∧ outP.channels[1]? = outQ.channels[1]?) := by
  have hP := processBlock_of_clearLoop p { size := sizeP, channels := [leftP, rightP] }
    { size := sizeP, channels := [leftP, rightP] } leftP rightP []
    (by rw [Nat.sub_eq_zero_of_le hp]; rfl) rfl
  have hQ := processBlock_of_clearLoop q { size := sizeQ, channels := [leftQ, rightQ] }
    { size := sizeQ, channels := [leftQ, rightQ] } leftQ rightQ []
    (by rw [Nat.sub_eq_zero_of_le hq]; rfl) rfl
  refine ⟨_, _, _, _, hP, hQ, rfl, rfl, rfl, ?_, ?_⟩
  · intro hc hs
    simp [hc, hs]
  · intro hc hs
    simp [hc, hs]

/-- C3 at a concrete input: two stereo processors with the same left chain and
different right chains, on buffers with the same left and different right
samples. -/
theorem processBlock_channel_independence_witness :
    preparedProcessor.totalNumOutputChannels ≤ preparedProcessor.totalNumInputChannels
      ∧ otherProcessor.totalNumOutputChannels ≤ otherProcessor.totalNumInputChannels
      ∧ ∃ p' outP q' outQ,
        processBlock preparedProcessor { size := 2, channels := [[1, 2], [3, 4]] } = .ok (p', outP)
        ∧ processBlock otherProcessor { size := 2, channels := [[1, 2], [7, 9]] } = .ok (q', outQ)
        ∧ outP.channels = [(preparedProcessor.leftChain.process [1, 2]).2,
            (preparedProcessor.rightChain.process [3, 4]).2]
        ∧ p'.leftChain = (preparedProcessor.leftChain.process [1, 2]).1
        ∧ p'.rightChain = (preparedProcessor.rightChain.process [3, 4]).1
        ∧ (preparedProcessor.leftChain = otherProcessor.leftChain → [1, 2] = [1, (2 : Int)] →
            p'.leftChain = q'.leftChain ∧ outP.channels[0]? = outQ.channels[0]?)
        ∧ (preparedProcessor.rightChain = otherProcessor.rightChain → [3, 4] = [7, (9 : Int)] →
            p'.rightChain = q'.rightChain ∧ outP.channels[1]? = outQ.channels[1]?) :=
  ⟨by decide, by decide,
    processBlock_channel_independence preparedProcessor otherProcessor 2 2 [1, 2] [3, 4] [1, 2]
      [7, 9] (by decide) (by decide)⟩

/-- C4, counterexample: the prepared stereo processor is handed the parameter
snapshot with "Peak (1) Gain" at 6 instead of 0.  `processBlock` returns the
processor and the buffer `[[1, 2], [3, 4]]` exactly as they were: no stage
coefficient was replaced.  No derivation of coefficient sets that tells the
two snapshots apart gives the coefficients the chains hold after the call. -/
theorem processBlock_ignores_parameter_change :
    gainSixParameters ≠ preparedProcessor.avpts
      ∧ processBlock { preparedProcessor with avpts := gainSixParameters } stereoBuffer
          = .ok ({ preparedProcessor with avpts := gainSixParameters }, stereoBuffer)
      ∧ ¬ ∃ derive : AudioProcessorValueTreeState → List (List Int),
          derive preparedProcessor.avpts ≠ derive gainSixParameters
            ∧ ∀ avpts, avpts = preparedProcessor.avpts ∨ avpts = gainSixParameters →
                (processBlock { preparedProcessor with avpts := avpts } stereoBuffer).map
                    (fun r => (r.1.leftChain.coefficientSets, r.1.rightChain.coefficientSets))
                  = .ok (derive avpts, derive avpts) := by
  refine ⟨by decide, by decide, ?_⟩
  rintro ⟨derive, hne, h⟩
  have h1 := h _ (Or.inl rfl)
  have h2 := h _ (Or.inr rfl)
  have e1 : (processBlock { preparedProcessor with avpts := preparedProcessor.avpts }
      stereoBuffer).map
        (fun r => (r.1.leftChain.coefficientSets, r.1.rightChain.coefficientSets))
      = .ok (List.replicate 9 [1, 0, 0], List.replicate 9 [1, 0, 0]) := by decide
  have e2 : (processBlock { preparedProcessor with avpts := gainSixParameters }
      stereoBuffer).map
        (fun r => (r.1.leftChain.coefficientSets, r.1.rightChain.coefficientSets))
      = .ok (List.replicate 9 [1, 0, 0], List.replicate 9 [1, 0, 0]) := by decide
  rw [e1] at h1
  rw [e2] at h2
  simp only [Except.ok.injEq, Prod.mk.injEq] at h1 h2
  exact hne (h1.1.symm.trans h2.1)

/-- C4, amended: on a buffer with at least two channels and at least
`totalNumOutputChannels` channels, `processBlock` returns and leaves the stage
coefficients of the left and of the right chain, and the parameter values, as
they were before the call; the parameters are not read: with any other
snapshot `avpts` in their place the call returns the same buffer and the same
chains. -/
theorem processBlock_keeps_coefficients [CommRing α]
    (p : SimpleEqAudioProcessor α) (buffer : AudioBuffer α)
    (avpts : AudioProcessorValueTreeState)
    (h2 : 2 ≤ buffer.getNumChannels)
    (hout : p.totalNumOutputChannels ≤ buffer.getNumChannels) :
    ∃ p' out, processBlock p buffer = .ok (p', out)
      ∧ p'.leftChain.coefficientSets = p.leftChain.coefficientSets
      ∧ p'.rightChain.coefficientSets = p.rightChain.coefficientSets
      ∧ p'.avpts = p.avpts
      ∧ processBlock { p with avpts := avpts } buffer = .ok ({ p' with avpts := avpts }, out) := by
  obtain ⟨L, R, rest, _, hget, hpb⟩ := processBlock_ok p buffer h2 hout
  obtain ⟨L', R', rest', _, hget', hpb'⟩ := processBlock_ok { p with avpts := avpts } buffer h2 hout
  have hsame : L :: R :: rest = L' :: R' :: rest' := by
    apply List.ext_getElem?
    intro k
    rw [hget k, hget' k]
  simp only [List.cons.injEq] at hsame
  obtain ⟨rfl, rfl, rfl⟩ := hsame
  refine ⟨_, _, hpb, monoChain_process_coefficientSets _ _,
    monoChain_process_coefficientSets _ _, rfl, ?_⟩
  rw [hpb']

/-- C4, amended, at a concrete input: the processor whose right chain holds
other coefficients, on the stereo buffer, with the gain-6 snapshot. -/
theorem processBlock_keeps_coefficients_witness :
    2 ≤ stereoBuffer.getNumChannels
      ∧ otherProcessor.totalNumOutputChannels ≤ stereoBuffer.getNumChannels
      ∧ ∃ p' out, processBlock otherProcessor stereoBuffer = .ok (p', out)
        ∧ p'.leftChain.coefficientSets = otherProcessor.leftChain.coefficientSets
        ∧ p'.rightChain.coefficientSets = otherProcessor.rightChain.coefficientSets
        ∧ p'.avpts = otherProcessor.avpts
        ∧ processBlock { otherProcessor with avpts := gainSixParameters } stereoBuffer
            = .ok ({ p' with avpts := gainSixParameters }, out) :=
  ⟨by decide, by decide,
    processBlock_keeps_coefficients otherProcessor stereoBuffer gainSixParameters
      (by decide) (by decide)⟩

/-- C5: the claim says "Peak (1) Tightness" is registered with the tightness
range `[0.1, 10]`, step 0.05.  The layout registers it with `gainRange`,
`[-24, 24]` step 0.5: that range is not `tightnessRange`, it starts below 0.1,
and 0 is one of its values (`-24 + 48 * 0.5`). -/
theorem tightness_registered_with_gainRange :
    getParameter createParameterLayout "Peak (1) Tightness"
        = some (.AudioParameterFloat "Peak (1) Tightness" "Peak (1) Tightness" gainRange 1)
      ∧ gainRange ≠ tightnessRange
      ∧ gainRange.rangeStart = -24 ∧ gainRange.rangeEnd = 24
      ∧ gainRange.rangeStart + 48 * gainRange.intervalValue = 0
      ∧ ¬ ((1 : ℚ) / 10 ≤ gainRange.rangeStart) := by
  refine ⟨by rfl, ?_, rfl, rfl, ?_, ?_⟩
  · intro h
    have := congrArg NormalisableRange.rangeEnd h
    simp [gainRange, tightnessRange] at this
  · norm_num [gainRange]
  · norm_num [gainRange]

/-- C6: in the layout of `createParameterLayout`, "LowCut Frequency",
"HighCut Frequency" and "Peak (1) Frequency" are float parameters registered
with `frequencyRange`, which runs from 20 to 20000, with the defaults 20,
20000 and 1000, each of which lies inside the range. -/
theorem frequency_parameters_ranges :
    getParameter createParameterLayout "LowCut Frequency"
        = some (.AudioParameterFloat "LowCut Frequency" "LowCut Frequency" frequencyRange 20)
      ∧ getParameter createParameterLayout "HighCut Frequency"
        = some (.AudioParameterFloat "HighCut Frequency" "HighCut Frequency" frequencyRange 20000)
      ∧ getParameter createParameterLayout "Peak (1) Frequency"
        = some (.AudioParameterFloat "Peak (1) Frequency" "Peak (1) Frequency" frequencyRange 1000)
      ∧ frequencyRange.rangeStart = 20 ∧ frequencyRange.rangeEnd = 20000
      ∧ (frequencyRange.rangeStart ≤ 20 ∧ 20 ≤ frequencyRange.rangeEnd)
      ∧ (frequencyRange.rangeStart ≤ 20000 ∧ 20000 ≤ frequencyRange.rangeEnd)
      ∧ (frequencyRange.rangeStart ≤ 1000 ∧ 1000 ≤ frequencyRange.rangeEnd) := by
  refine ⟨by rfl, by rfl, by rfl, rfl, rfl, ?_, ?_, ?_⟩ <;> norm_num [frequencyRange]

/-- C7: the slope list has exactly 4 entries, entry `i` is the decimal text of
`12 + 12 * i` followed by `" dB/Oct"`, that is 12, 24, 36 and 48 dB/Oct in this
order, and both "LowCut Slope" and "HighCut Slope" are choice parameters over
this list with default index 0. -/
theorem cutSlopes_entries :
    cutSlopes.length = 4
      ∧ (∀ i : Fin 4, cutSlopes[i.val]? = some (toString (12 + 12 * i.val) ++ " dB/Oct"))
      ∧ cutSlopes = ["12 dB/Oct", "24 dB/Oct", "36 dB/Oct", "48 dB/Oct"]
      ∧ getParameter createParameterLayout "LowCut Slope"
        = some (.AudioParameterChoice "LowCut Slope" "LowCut Slope" cutSlopes 0)
      ∧ getParameter createParameterLayout "HighCut Slope"
        = some (.AudioParameterChoice "HighCut Slope" "HighCut Slope" cutSlopes 0) := by
  refine ⟨by rfl, by decide, by decide, by rfl, by rfl⟩

/-- C8: in the build that is neither a MIDI effect nor a synth,
`isBusesLayoutSupported` returns true exactly when the main output channel set
is mono or stereo and the main input channel set equals it. -/
theorem isBusesLayoutSupported_iff (layouts : BusesLayout) :
    isBusesLayoutSupported { JucePlugin_IsMidiEffect := false, JucePlugin_IsSynth := false } layouts
        = true
      ↔ ((layouts.getMainOutputChannelSet = AudioChannelSet.mono
            ∨ layouts.getMainOutputChannelSet = AudioChannelSet.stereo)
          ∧ layouts.getMainInputChannelSet = layouts.getMainOutputChannelSet) := by
  unfold isBusesLayoutSupported
  generalize layouts.getMainOutputChannelSet = o
  generalize layouts.getMainInputChannelSet = i
  by_cases h3 : o = i
  · subst h3
    by_cases h1 : o = AudioChannelSet.mono <;>
    by_cases h2 : o = AudioChannelSet.stereo <;> simp [h1, h2]
  · have h3' : ¬ i = o := fun h => h3 h.symm
    by_cases h1 : o = AudioChannelSet.mono <;>
    by_cases h2 : o = AudioChannelSet.stereo <;> simp [h1, h2, h3, h3'] <;> exact eq_comm

/-- C9: a `monoChain` has 9 filter stages, the 4 of its first `cutFilter`, its
single filter, the 4 of its second `cutFilter`.  Processing a block stage after
stage gives the samples that threading each sample through the first cascade
(stages 0 to 3 in order), the single filter and the second cascade gives, and
on a non-empty block the same final chain; on the one-sample block `[x]` the
output is `highCut (peak (lowCut x))`. -/
theorem monoChain_topology [CommRing α] (c : monoChain α) (x : α) (block : List α) :
    c.stages.length = 9
      ∧ c.stages = c.get0.stages ++ [c.get1] ++ c.get2.stages
      ∧ c.get0.stages.length = 4 ∧ c.get2.stages.length = 4
      ∧ (monoChain.process c block).2 = (runBlock specChainProcessSample c block).2
      ∧ monoChain.process c (x :: block) = runBlock specChainProcessSample c (x :: block)
      ∧ monoChain.process c [x] = ((specChainProcessSample c x).1, [(specChainProcessSample c x).2])
      ∧ (specChainProcessSample c x).2
          = (specCascadeProcessSample c.get2
              (c.get1.processSample (specCascadeProcessSample c.get0 x).2).2).2 := by
  refine ⟨rfl, rfl, rfl, rfl, ?_, monoChain_process_cons c x block, ?_, rfl⟩
  · cases block with
    | nil => rw [monoChain_process_nil]; rfl
    | cons y ys => rw [monoChain_process_cons]
  · rw [monoChain_process_cons]; rfl

/-- C10, counterexample: the state written by a processor whose "Peak (1)
Gain" is 6 is the empty block it was given, and the prepared processor that
reads it back keeps its own parameters, not those of the writer. -/
theorem state_round_trip_loses_parameters :
    getStateInformation { preparedProcessor with avpts := gainSixParameters } [] = []
      ∧ (setStateInformation preparedProcessor
          (getStateInformation { preparedProcessor with avpts := gainSixParameters } []) 0).avpts
        ≠ gainSixParameters := by
  decide

/-- C10, amended: `getStateInformation` leaves the destination block as it
was given, and `setStateInformation` leaves the processor, its parameters
included, as it was, whatever data it is handed: after the pair the reading
processor's parameters are its own `q`, which are `p` only when `q = p`. -/
theorem state_information_is_inert (p q : SimpleEqAudioProcessor α)
    (destData : MemoryBlock) (sizeInBytes : Int) :
    getStateInformation p destData = destData
      ∧ setStateInformation q (getStateInformation p destData) sizeInBytes = q
      ∧ (setStateInformation q (getStateInformation p destData) sizeInBytes).avpts = q.avpts :=
  ⟨rfl, rfl, rfl⟩

end SimpleEq
